import Mathlib

/-!
Shallow embedding of `code/pre_processing.py` (Reddit Essure-discussion
extraction) for checking the repository specification.

Cells of a pandas dataframe are modelled by `Val`: a string, an integer, or
`null` (covering both JSON `null` and pandas NaN — pandas string operations
with `na=False` treat both as non-matching, and `drop_duplicates` / `merge`
treat NaN as equal to itself, which `Val.null = Val.null` mirrors).
A decoded JSON record is a key/value list.
-/

inductive Val where
  | str : String → Val
  | int : Int → Val
  | null : Val
deriving DecidableEq, Repr

abbrev Record := List (String × Val)

/-- Field access on a decoded record; an absent key behaves as NaN (`null`),
matching how `pd.DataFrame(list_of_dicts)` fills missing keys. -/
def getCol (r : Record) (k : String) : Val :=
  (r.lookup k).getD Val.null

/-- Key presence on a decoded record. -/
def hasCol (r : Record) (k : String) : Bool :=
  (r.lookup k).isSome

/-!
Word-boundary keyword search, embedding the regex `\bEssure\b|\bessure\b`
used at `pre_processing.py:83` with `str.contains(..., regex=True,
case=True, na=False)`.  `\w` is modelled on its ASCII fragment
`[A-Za-z0-9_]` (every string the program's claims exercise is ASCII).
-/

def isWordChar (c : Char) : Bool :=
  c.isAlphanum || c == '_'

/-- A position boundary on the left: start of string, or the preceding
character is not a word character. -/
def boundaryL : Option Char → Bool
  | none => true
  | some c => !isWordChar c

/-- A position boundary on the right: end of string, or the following
character is not a word character. -/
def boundaryR : List Char → Bool
  | [] => true
  | c :: _ => !isWordChar c

/-- Regex search for `\b kw \b` in a character list, scanning left to right;
`prev` is the character immediately before the current suffix (`none` at the
start of the string). -/
def searchWord (kw : List Char) (prev : Option Char) : List Char → Bool
  | [] => false
  | c :: cs =>
    (boundaryL prev && kw.isPrefixOf (c :: cs) && boundaryR ((c :: cs).drop kw.length))
      || searchWord kw (some c) cs

/-- The pattern `\bEssure\b|\bessure\b` searched in a string (alternation of
the two whole-word searches). -/
def hasEssureWord (s : String) : Bool :=
  searchWord "Essure".toList none s.toList || searchWord "essure".toList none s.toList

/-- One cell run through `str.contains(essure_pattern, regex=True, case=True,
na=False)`: a non-string cell (NaN/null) is non-matching, never an error. -/
def cellMatchesEssure : Val → Bool
  | .str s => hasEssureWord s
  | _ => false

/-- Substring search: does `kw` occur as a contiguous run in the list? -/
def containsSeq (kw : List Char) : List Char → Bool
  | [] => kw.isEmpty
  | c :: cs => kw.isPrefixOf (c :: cs) || containsSeq kw cs

/-- Plain substring search, embedding `str.contains('Essure', case=True,
na=False)` from the dead first filter at `pre_processing.py:79`. -/
def cellContainsEssureSubstr : Val → Bool
  | .str s => containsSeq "Essure".toList s.toList
  | _ => false

/-!
Tabular pipeline of `process_reddit_data` (pre_processing.py:49-154).
-/

/-- Column allowlist for submissions (pre_processing.py:68). -/
def submissions_cols : List String :=
  ["id", "name", "created_utc", "title", "selftext", "subreddit"]

/-- Column allowlist for comments (pre_processing.py:69). -/
def comments_cols : List String :=
  ["id", "subreddit", "created_utc", "body", "link_id", "parent_id"]

/-- A submissions dataframe row after projection to `submissions_cols`. -/
structure SubRow where
  id : Val
  name : Val
  created_utc : Val
  title : Val
  selftext : Val
  subreddit : Val
deriving DecidableEq, Repr

/-- A comments dataframe row after projection to `comments_cols`. -/
structure ComRow where
  id : Val
  subreddit : Val
  created_utc : Val
  body : Val
  link_id : Val
  parent_id : Val
deriving DecidableEq, Repr

/-- Projection of one record onto the submission columns; an absent key
yields `null` in that cell, as `pd.DataFrame(list_of_dicts)` fills NaN. -/
def subRowOf (r : Record) : SubRow :=
  { id := getCol r "id", name := getCol r "name",
    created_utc := getCol r "created_utc", title := getCol r "title",
    selftext := getCol r "selftext", subreddit := getCol r "subreddit" }

/-- Projection of one record onto the comment columns. -/
def comRowOf (r : Record) : ComRow :=
  { id := getCol r "id", subreddit := getCol r "subreddit",
    created_utc := getCol r "created_utc", body := getCol r "body",
    link_id := getCol r "link_id", parent_id := getCol r "parent_id" }

/-- Column selection `pd.DataFrame(data)[cols]` raises KeyError exactly when
some requested column name occurs in no record (the dataframe's columns are
the union of the records' keys); a key missing from only some records is
filled with NaN instead. -/
def colsPresent (cols : List String) (data : List Record) : Bool :=
  cols.all (fun c => data.any (fun r => hasCol r c))

/-- Construction of `submissions_df = pd.DataFrame(submissions_data)[submissions_cols]`
(pre_processing.py:71): KeyError is modelled as `Except.error`. -/
def mkSubmissionsDf (data : List Record) : Except String (List SubRow) :=
  if colsPresent submissions_cols data then .ok (data.map subRowOf)
  else .error "KeyError: missing submission column"

/-- Construction of `comments_df = pd.DataFrame(comments_data)[comments_cols]`
(pre_processing.py:72). -/
def mkCommentsDf (data : List Record) : Except String (List ComRow) :=
  if colsPresent comments_cols data then .ok (data.map comRowOf)
  else .error "KeyError: missing comment column"

/-- Embedding of `pd.to_datetime(..., unit='s')` (pre_processing.py:75-76)
on one cell: a string raises ValueError (not convertible with a unit), an
epoch-second count outside the int64-nanosecond Timestamp range (about
±9.223e9 seconds) raises OutOfBoundsDatetime, NaN becomes NaT (kept as
`null`), and an in-range count converts (kept in its epoch-seconds
representation — an injective relabelling). -/
def to_datetime : Val → Except String Val
  | .int n =>
    if -9223372036 ≤ n ∧ n ≤ 9223372036 then .ok (.int n)
    else .error "OutOfBoundsDatetime"
  | .str _ => .error "ValueError: non convertible value with the unit"
  | .null => .ok .null

/-- The column assignment `df['created_utc'] = pd.to_datetime(df['created_utc'],
unit='s')` for the submissions frame: converts every cell, raising (as
`Except.error`) if any cell fails. -/
def convertSubTimestamps : List SubRow → Except String (List SubRow)
  | [] => .ok []
  | r :: rs => do
    let v ← to_datetime r.created_utc
    let rest ← convertSubTimestamps rs
    .ok ({ r with created_utc := v } :: rest)

/-- The same column assignment for the comments frame. -/
def convertComTimestamps : List ComRow → Except String (List ComRow)
  | [] => .ok []
  | r :: rs => do
    let v ← to_datetime r.created_utc
    let rest ← convertComTimestamps rs
    .ok ({ r with created_utc := v } :: rest)

/-- Submission keyword filter used at pre_processing.py:84-87: title or
selftext matches the whole-word pattern. -/
def subMatches (s : SubRow) : Bool :=
  cellMatchesEssure s.title || cellMatchesEssure s.selftext

/-- Dead first submission filter at pre_processing.py:79-82: plain substring
containment of "Essure" on title or selftext. -/
def subMatchesSubstr (s : SubRow) : Bool :=
  cellContainsEssureSubstr s.title || cellContainsEssureSubstr s.selftext

/-- Comment keyword filter used at pre_processing.py:90. -/
def comMatches (c : ComRow) : Bool :=
  cellMatchesEssure c.body

/-- A Discussion row in the reconciled schema: the columns of both merges
after the renames of pre_processing.py:111-143 (suffix `_x`/`_y` columns
mapped to side-disambiguated names; both merges rename onto this same set,
so `pd.concat` aligns them by name). -/
structure Discussion where
  submission_base_id : Val
  submission_id : Val
  submission_created_utc : Val
  submission_title : Val
  submission_selftext : Val
  submission_subreddit : Val
  comment_base_id : Val
  comment_subreddit : Val
  comment_created_utc : Val
  comment_body : Val
  comment_link_id : Val
  comment_parent_id : Val
deriving DecidableEq, Repr

/-- A Discussion row assembled from an optional submission side and an
optional comment side; a missing side's columns are NaN, as a left merge
leaves unmatched right-hand columns. -/
def mkDiscussion (s? : Option SubRow) (c? : Option ComRow) : Discussion :=
  { submission_base_id := (s?.map SubRow.id).getD .null
    submission_id := (s?.map SubRow.name).getD .null
    submission_created_utc := (s?.map SubRow.created_utc).getD .null
    submission_title := (s?.map SubRow.title).getD .null
    submission_selftext := (s?.map SubRow.selftext).getD .null
    submission_subreddit := (s?.map SubRow.subreddit).getD .null
    comment_base_id := (c?.map ComRow.id).getD .null
    comment_subreddit := (c?.map ComRow.subreddit).getD .null
    comment_created_utc := (c?.map ComRow.created_utc).getD .null
    comment_body := (c?.map ComRow.body).getD .null
    comment_link_id := (c?.map ComRow.link_id).getD .null
    comment_parent_id := (c?.map ComRow.parent_id).getD .null }

/-- Join A, `merged_df_1` (pre_processing.py:93-99): matched submissions
LEFT JOIN all comments on `name = link_id`; each left row pairs with every
matching right row, in right order, or once with NaN comment columns when no
right row matches (pandas also joins NaN keys to NaN keys, which `Val`
equality mirrors). -/
def leftMergeSubCom (lefts : List SubRow) (rights : List ComRow) : List Discussion :=
  (lefts.map (fun s =>
    let ms := rights.filter (fun c => c.link_id == s.name)
    if ms.isEmpty then [mkDiscussion (some s) none]
    else ms.map (fun c => mkDiscussion (some s) (some c)))).flatten

/-- Join B, `merged_df_2` (pre_processing.py:102-108): matched comments LEFT
JOIN all submissions on `link_id = name`. -/
def leftMergeComSub (lefts : List ComRow) (rights : List SubRow) : List Discussion :=
  (lefts.map (fun c =>
    let ms := rights.filter (fun s => s.name == c.link_id)
    if ms.isEmpty then [mkDiscussion none (some c)]
    else ms.map (fun s => mkDiscussion (some s) (some c)))).flatten

/-- Embedding of `DataFrame.drop_duplicates()` (pre_processing.py:147): keep
the first occurrence of each fully-equal row, preserving order; `seen` holds
the rows already emitted. -/
def dropDupAux {α : Type} [DecidableEq α] (seen : List α) : List α → List α
  | [] => []
  | x :: xs =>
    if x ∈ seen then dropDupAux seen xs
    else x :: dropDupAux (x :: seen) xs

/-- Drop fully-duplicate rows, keeping first occurrences. -/
def dropDuplicates {α : Type} [DecidableEq α] (l : List α) : List α :=
  dropDupAux [] l

/-- Post-conversion body of `process_reddit_data` (pre_processing.py:78-147):
filter (including the immediately-overwritten substring filter at line 79,
kept here as the shadowed first binding of `essure_submissions`), run the
two left merges, rename into the common schema (performed inside
`mkDiscussion`), concatenate and drop duplicate rows. -/
def extractDiscussions (submissions_df : List SubRow) (comments_df : List ComRow) :
    List Discussion :=
  let essure_submissions := submissions_df.filter subMatchesSubstr
  let essure_submissions := submissions_df.filter subMatches
  let essure_comments := comments_df.filter comMatches
  let merged_df_1 := leftMergeSubCom essure_submissions comments_df
  let merged_df_2 := leftMergeComSub essure_comments submissions_df
  let full_df := merged_df_1 ++ merged_df_2
  dropDuplicates full_df

/-- Embedding of `process_reddit_data` (pre_processing.py:49-154) from the
decoded record sequences onward; a KeyError at projection (lines 71-72) or
an exception from the timestamp conversion (lines 75-76) propagates as
`Except.error`, in source order. -/
def process_reddit_data (submissions_data comments_data : List Record) :
    Except String (List Discussion) := do
  let submissions_df ← mkSubmissionsDf submissions_data
  let comments_df ← mkCommentsDf comments_data
  let submissions_df ← convertSubTimestamps submissions_df
  let comments_df ← convertComTimestamps comments_df
  .ok (extractDiscussions submissions_df comments_df)

/-- Variant of `extractDiscussions` with the dead substring-filter statement
(pre_processing.py:79-82) removed; everything else is identical. -/
def extractDiscussions_nofirstfilter (submissions_df : List SubRow) (comments_df : List ComRow) :
    List Discussion :=
  let essure_submissions := submissions_df.filter subMatches
  let essure_comments := comments_df.filter comMatches
  let merged_df_1 := leftMergeSubCom essure_submissions comments_df
  let merged_df_2 := leftMergeComSub essure_comments submissions_df
  let full_df := merged_df_1 ++ merged_df_2
  dropDuplicates full_df

/-- Variant of `process_reddit_data` built on the dead-filter-free body. -/
def process_reddit_data_nofirstfilter (submissions_data comments_data : List Record) :
    Except String (List Discussion) := do
  let submissions_df ← mkSubmissionsDf submissions_data
  let comments_df ← mkCommentsDf comments_data
  let submissions_df ← convertSubTimestamps submissions_df
  let comments_df ← convertComTimestamps comments_df
  .ok (extractDiscussions_nofirstfilter submissions_df comments_df)

/-!
Archive decoder `read_zst_to_json` (pre_processing.py:9-47).  The zstd
decompressor, UTF-8 text wrapper and JSON parser are external collaborators:
the archive is modelled as either an upfront open/decompress failure
(`Except.error`) or the list of text lines it decompresses to, and the JSON
parser as a `parse` function returning `none` on a JSONDecodeError (a parse
either yields a complete record or fails — no partial record exists).
-/

/-- Embedding of Python's str.strip(): drop whitespace from both ends
(written over the character list so that it computes by structural
recursion). -/
def stripStr (s : String) : String :=
  ⟨((s.toList.dropWhile Char.isWhitespace).reverse.dropWhile Char.isWhitespace).reverse⟩

/-- One console log line emitted by the decoder. -/
inductive LogEntry where
  | decodeError (lineNo : Nat)
  | progress (count : Nat)
  | totalRecords (count : Nat)
  | fileError (msg : String)
deriving DecidableEq, Repr

/-- Decode loop (pre_processing.py:28-39): `lineNo` is the 1-based number of
the next line (from `enumerate(text_stream, 1)`), `count` the number of
records parsed so far (`len(data)`); returns the parsed records in line
order, and the log: a line-numbered error per parse failure and a progress
line per 1000th parsed record. -/
def decodeLines (parse : String → Option Record) :
    Nat → Nat → List String → List Record × List LogEntry
  | _, _, [] => ([], [])
  | lineNo, count, l :: ls =>
    match parse (stripStr l) with
    | some r =>
      let rest := decodeLines parse (lineNo + 1) (count + 1) ls
      (r :: rest.1,
        (if (count + 1) % 1000 == 0 then [LogEntry.progress (count + 1)] else []) ++ rest.2)
    | none =>
      let rest := decodeLines parse (lineNo + 1) count ls
      (rest.1, LogEntry.decodeError lineNo :: rest.2)

/-- Embedding of `read_zst_to_json` (pre_processing.py:9-47): on an
open/decompress failure the exception is caught, logged (with
`traceback.print_exc()`) and an empty record list returned; otherwise the
lines are decoded one by one and a total-count line is logged. -/
def read_zst_to_json (parse : String → Option Record)
    (archive : Except String (List String)) : List Record × List LogEntry :=
  match archive with
  | .error e => ([], [LogEntry.fileError e])
  | .ok lines =>
    let res := decodeLines parse 1 0 lines
    (res.1, res.2 ++ [LogEntry.totalRecords res.1.length])

/-!
Module driver loop (pre_processing.py:156-191), from the point where the
subreddit file pairs have been enumerated.  Each pair's archives are decoded
and extracted; the result table is appended to `all_discussions`
unconditionally (empty or not).  After the loop, if any table was collected,
the tables are concatenated and deduplicated.  The driver's filesystem writes
are modelled explicitly as a list of (filename, rows) pairs: the only write
in the source, `final_df.to_csv('essure_discussions.csv')` at line 191, is
commented out, so no file is ever written.
-/

/-- One enumerated subreddit pair: the subreddit name and its two archives. -/
structure ArchivePair where
  subreddit : String
  submissionsArchive : Except String (List String)
  commentsArchive : Except String (List String)
deriving Repr

/-- The per-pair loop body (pre_processing.py:166-178): decode both archives,
extract, append.  A KeyError inside `process_reddit_data` is uncaught in the
source and aborts the whole batch, hence the `Except`. -/
def driverLoop (parse : String → Option Record) :
    List ArchivePair → Except String (List (List Discussion))
  | [] => .ok []
  | p :: ps => do
    let discussions ← process_reddit_data
      (read_zst_to_json parse p.submissionsArchive).1
      (read_zst_to_json parse p.commentsArchive).1
    let rest ← driverLoop parse ps
    .ok (discussions :: rest)

/-- The driver epilogue (pre_processing.py:180-191): returns the final
concatenated, deduplicated table (or `none` when no pair was processed) and
the list of files written — empty, because the single `to_csv` call is
commented out. -/
def driverMain (parse : String → Option Record) (pairs : List ArchivePair) :
    Except String (Option (List Discussion) × List (String × List Discussion)) := do
  let all_discussions ← driverLoop parse pairs
  if all_discussions.isEmpty then .ok (none, [])
  else .ok (some (dropDuplicates all_discussions.flatten), [])

/-- The line numbers of the decode errors appearing in a log. -/
def loggedErrorLines (logs : List LogEntry) : List Nat :=
  logs.filterMap (fun e => match e with | .decodeError n => some n | _ => none)

/-!
Concrete fixtures: decoded records mirroring the worked examples of the
specification (a matched submission named t3_abc with keyword title, two
non-matching comments under it, one matching comment under it, and a
submission record that lacks the title field), plus the Discussion rows the
pipeline produces from them.
-/

def subRec1 : Record :=
  [("id", .str "s1"), ("name", .str "t3_abc"), ("created_utc", .int 100),
   ("title", .str "Essure experience"), ("selftext", .str ""), ("subreddit", .str "r1")]

/-- A record that lacks the "title" key (other records supply it). -/
def subRec2 : Record :=
  [("id", .str "s2"), ("name", .str "t3_def"), ("created_utc", .int 100),
   ("selftext", .str "no keyword"), ("subreddit", .str "r1")]

def comRec1 : Record :=
  [("id", .str "c1"), ("subreddit", .str "r1"), ("created_utc", .int 200),
   ("body", .str "unrelated"), ("link_id", .str "t3_abc"), ("parent_id", .str "t3_abc")]

def comRec2 : Record :=
  [("id", .str "c2"), ("subreddit", .str "r1"), ("created_utc", .int 300),
   ("body", .str "nothing here"), ("link_id", .str "t3_abc"), ("parent_id", .str "t3_abc")]

/-- A comment whose body itself matches the keyword. -/
def comRec3 : Record :=
  [("id", .str "c3"), ("subreddit", .str "r1"), ("created_utc", .int 400),
   ("body", .str "essure too"), ("link_id", .str "t3_abc"), ("parent_id", .str "t3_abc")]

/-- Records identical up to the value of their "author" key. -/
def subRecAuthorA : Record := subRec1 ++ [("author", .str "alice")]

def subRecAuthorB : Record := subRec1 ++ [("author", .str "bob")]

def disc_s1_c1 : Discussion :=
  { submission_base_id := .str "s1", submission_id := .str "t3_abc",
    submission_created_utc := .int 100, submission_title := .str "Essure experience",
    submission_selftext := .str "", submission_subreddit := .str "r1",
    comment_base_id := .str "c1", comment_subreddit := .str "r1",
    comment_created_utc := .int 200, comment_body := .str "unrelated",
    comment_link_id := .str "t3_abc", comment_parent_id := .str "t3_abc" }

def disc_s1_c2 : Discussion :=
  { submission_base_id := .str "s1", submission_id := .str "t3_abc",
    submission_created_utc := .int 100, submission_title := .str "Essure experience",
    submission_selftext := .str "", submission_subreddit := .str "r1",
    comment_base_id := .str "c2", comment_subreddit := .str "r1",
    comment_created_utc := .int 300, comment_body := .str "nothing here",
    comment_link_id := .str "t3_abc", comment_parent_id := .str "t3_abc" }

def disc_s1_c3 : Discussion :=
  { submission_base_id := .str "s1", submission_id := .str "t3_abc",
    submission_created_utc := .int 100, submission_title := .str "Essure experience",
    submission_selftext := .str "", submission_subreddit := .str "r1",
    comment_base_id := .str "c3", comment_subreddit := .str "r1",
    comment_created_utc := .int 400, comment_body := .str "essure too",
    comment_link_id := .str "t3_abc", comment_parent_id := .str "t3_abc" }

/-- A projected submission row whose title is exactly "essure is bad" and
whose selftext is empty (the specification's case-sensitivity example). -/
def subRowEssureLower : SubRow :=
  { id := .null, name := .null, created_utc := .null,
    title := .str "essure is bad", selftext := .str "", subreddit := .null }

/-- The same row with the all-caps title "ESSURE is bad". -/
def subRowEssureCaps : SubRow :=
  { id := .null, name := .null, created_utc := .null,
    title := .str "ESSURE is bad", selftext := .str "", subreddit := .null }

/-- A concrete JSON parser for driving the decoder and driver on fixtures:
two known line texts parse to the fixture records, anything else fails. -/
def testParse : String → Option Record := fun s =>
  if s = "S1" then some subRec1 else if s = "C3" then some comRec3 else none

/-- A concrete subreddit archive pair built from the fixtures. -/
def testPair : ArchivePair :=
  { subreddit := "testsub", submissionsArchive := .ok ["S1"],
    commentsArchive := .ok ["C3"] }

/-!
Declarative reading of the whole-word search, and its correctness proof.
-/

-- sanity checks on the keyword pattern
example : hasEssureWord "essure is bad" = true := by decide
example : hasEssureWord "ESSURE is bad" = false := by decide
example : hasEssureWord "Essure" = true := by decide
example : hasEssureWord "reessure" = false := by decide
example : hasEssureWord "(essure)" = true := by decide

/-- The keyword occurs in `l` as a whole word: some occurrence of `kw` is
preceded by start-of-string or a non-word character, and followed by
end-of-string or a non-word character. -/
def wordOccursIn (kw l : List Char) : Prop :=
  ∃ pre post, l = pre ++ (kw ++ post) ∧
    boundaryL pre.getLast? = true ∧ boundaryR post = true

/-- Declarative reading of the pattern `\bEssure\b|\bessure\b` on one cell:
a string cell matches when either exact-case keyword occurs as a whole word;
a non-string (missing/null) cell never matches. -/
def cellHasEssureWholeWord : Val → Prop
  | .str s => wordOccursIn "Essure".toList s.toList ∨ wordOccursIn "essure".toList s.toList
  | _ => False

/-- Character of the string position just before the occurrence starting
after `pre`, when the scan itself started just after `prev`. -/
def lastCharOr (prev : Option Char) : List Char → Option Char
  | [] => prev
  | c :: cs => lastCharOr (some c) cs

theorem lastCharOr_nil (prev : Option Char) : lastCharOr prev [] = prev := rfl

theorem lastCharOr_cons (prev : Option Char) (c : Char) (pre : List Char) :
    lastCharOr prev (c :: pre) = lastCharOr (some c) pre := rfl

theorem lastCharOr_eq :
    ∀ (pre : List Char) (prev : Option Char),
      lastCharOr prev pre = match pre.getLast? with | some c => some c | none => prev
  | [], prev => rfl
  | c :: cs, prev => by
    rw [lastCharOr_cons, lastCharOr_eq cs (some c)]
    cases cs with
    | nil => rfl
    | cons d t =>
      rw [List.getLast?_cons_cons]
      cases h : (d :: t).getLast? with
      | some e => rfl
      | none => exact absurd (List.getLast?_eq_none_iff.mp h) (by simp)

theorem lastCharOr_none (pre : List Char) : lastCharOr none pre = pre.getLast? := by
  rw [lastCharOr_eq]
  cases pre.getLast? <;> rfl

theorem isPrefixOf_eq_true_iff :
    ∀ (kw l : List Char), kw.isPrefixOf l = true ↔ ∃ t, l = kw ++ t
  | [], l => by simp [List.isPrefixOf]
  | a :: as, [] => by simp [List.isPrefixOf]
  | a :: as, b :: bs => by
    simp only [List.isPrefixOf, Bool.and_eq_true, beq_iff_eq]
    constructor
    · rintro ⟨rfl, h⟩
      obtain ⟨t, rfl⟩ := (isPrefixOf_eq_true_iff as bs).1 h
      exact ⟨t, rfl⟩
    · rintro ⟨t, ht⟩
      rw [List.cons_append] at ht
      injection ht with h1 h2
      exact ⟨h1.symm, (isPrefixOf_eq_true_iff as bs).2 ⟨t, h2⟩⟩

/-- Correctness of the left-to-right scan `searchWord` against the
declarative occurrence property, generalised over the character preceding
the scanned suffix. -/
theorem searchWord_eq_true_iff (kw : List Char) (hkw : kw ≠ []) :
    ∀ (l : List Char) (prev : Option Char),
      searchWord kw prev l = true ↔
        ∃ pre post, l = pre ++ (kw ++ post) ∧
          boundaryL (lastCharOr prev pre) = true ∧ boundaryR post = true := by
  intro l
  induction l with
  | nil =>
    intro prev
    simp only [searchWord]
    constructor
    · intro h; cases h
    · rintro ⟨pre, post, h, -, -⟩
      rcases List.append_eq_nil.mp h.symm with ⟨-, h2⟩
      rcases List.append_eq_nil.mp h2 with ⟨hk, -⟩
      exact absurd hk hkw
  | cons c cs ih =>
    intro prev
    simp only [searchWord, Bool.or_eq_true, Bool.and_eq_true]
    constructor
    · rintro (⟨⟨hb, hp⟩, hr⟩ | h)
      · obtain ⟨t, ht⟩ := (isPrefixOf_eq_true_iff kw (c :: cs)).1 hp
        refine ⟨[], t, by simpa using ht, by simpa [lastCharOr_nil] using hb, ?_⟩
        rwa [ht, List.drop_left] at hr
      · obtain ⟨pre, post, hcs, hbl, hbr⟩ := (ih (some c)).1 h
        exact ⟨c :: pre, post, by simp [hcs], by rwa [lastCharOr_cons], hbr⟩
    · rintro ⟨pre, post, heq, hbl, hbr⟩
      cases pre with
      | nil =>
        left
        rw [List.nil_append] at heq
        refine ⟨⟨by simpa [lastCharOr_nil] using hbl,
          (isPrefixOf_eq_true_iff _ _).2 ⟨post, heq⟩⟩, ?_⟩
        rw [heq, List.drop_left]; exact hbr
      | cons c' pre' =>
        right
        rw [List.cons_append] at heq
        injection heq with h1 h2
        subst h1
        exact (ih (some c)).2 ⟨pre', post, h2, by rwa [lastCharOr_cons] at hbl, hbr⟩

/-- The top-level string search agrees with the declarative alternation. -/
theorem hasEssureWord_iff (s : String) :
    hasEssureWord s = true ↔
      wordOccursIn "Essure".toList s.toList ∨ wordOccursIn "essure".toList s.toList := by
  unfold hasEssureWord wordOccursIn
  rw [Bool.or_eq_true,
    searchWord_eq_true_iff "Essure".toList (by decide) s.toList none,
    searchWord_eq_true_iff "essure".toList (by decide) s.toList none]
  simp [lastCharOr_none]

/-- Cell-level agreement: the executable filter matches exactly the cells
with a declarative whole-word occurrence. -/
theorem cellMatchesEssure_iff (v : Val) :
    cellMatchesEssure v = true ↔ cellHasEssureWholeWord v := by
  cases v <;> simp [cellMatchesEssure, cellHasEssureWholeWord, hasEssureWord_iff]

/-!
Structural lemmas about deduplication, the left merges and the pipeline.
-/

theorem dropDupAux_nodup {α : Type} [DecidableEq α] :
    ∀ (l seen : List α),
      (dropDupAux seen l).Nodup ∧ ∀ x ∈ dropDupAux seen l, x ∉ seen
  | [], _ => ⟨List.nodup_nil, by simp [dropDupAux]⟩
  | a :: l, seen => by
    by_cases h : a ∈ seen
    · rw [show dropDupAux seen (a :: l) = dropDupAux seen l by simp [dropDupAux, h]]
      exact dropDupAux_nodup l seen
    · rw [show dropDupAux seen (a :: l) = a :: dropDupAux (a :: seen) l by
        simp [dropDupAux, h]]
      obtain ⟨hn, hs⟩ := dropDupAux_nodup l (a :: seen)
      refine ⟨List.nodup_cons.2 ⟨fun hmem => hs a hmem (List.mem_cons_self a seen), hn⟩, ?_⟩
      intro x hx
      rcases List.mem_cons.1 hx with rfl | hx'
      · exact h
      · exact fun hxseen => hs x hx' (List.mem_cons_of_mem _ hxseen)

theorem nodup_dropDuplicates {α : Type} [DecidableEq α] (l : List α) :
    (dropDuplicates l).Nodup :=
  (dropDupAux_nodup l []).1

theorem mem_of_mem_dropDupAux {α : Type} [DecidableEq α] :
    ∀ (l seen : List α) (x : α), x ∈ dropDupAux seen l → x ∈ l
  | [], _, x, h => by simp [dropDupAux] at h
  | a :: l, seen, x, h => by
    by_cases ha : a ∈ seen
    · rw [show dropDupAux seen (a :: l) = dropDupAux seen l by simp [dropDupAux, ha]] at h
      exact List.mem_cons_of_mem _ (mem_of_mem_dropDupAux l seen x h)
    · rw [show dropDupAux seen (a :: l) = a :: dropDupAux (a :: seen) l by
        simp [dropDupAux, ha]] at h
      rcases List.mem_cons.1 h with rfl | h'
      · exact List.mem_cons_self _ _
      · exact List.mem_cons_of_mem _ (mem_of_mem_dropDupAux l (a :: seen) x h')

theorem mem_seen_or_mem_dropDupAux {α : Type} [DecidableEq α] :
    ∀ (l seen : List α) (x : α), x ∈ l → x ∈ seen ∨ x ∈ dropDupAux seen l
  | [], _, x, h => by simp at h
  | a :: l, seen, x, h => by
    by_cases ha : a ∈ seen
    · rw [show dropDupAux seen (a :: l) = dropDupAux seen l by simp [dropDupAux, ha]]
      rcases List.mem_cons.1 h with rfl | h'
      · exact Or.inl ha
      · exact mem_seen_or_mem_dropDupAux l seen x h'
    · rw [show dropDupAux seen (a :: l) = a :: dropDupAux (a :: seen) l by
        simp [dropDupAux, ha]]
      rcases List.mem_cons.1 h with rfl | h'
      · exact Or.inr (List.mem_cons_self _ _)
      · rcases mem_seen_or_mem_dropDupAux l (a :: seen) x h' with hseen | hout
        · rcases List.mem_cons.1 hseen with rfl | hseen'
          · exact Or.inr (List.mem_cons_self _ _)
          · exact Or.inl hseen'
        · exact Or.inr (List.mem_cons_of_mem _ hout)

/-- Deduplication keeps exactly the rows of the input (first occurrences). -/
theorem mem_dropDuplicates {α : Type} [DecidableEq α] {x : α} {l : List α} :
    x ∈ dropDuplicates l ↔ x ∈ l := by
  constructor
  · exact mem_of_mem_dropDupAux l [] x
  · intro h
    rcases mem_seen_or_mem_dropDupAux l [] x h with hseen | hout
    · simp at hseen
    · exact hout

/-- Every row of Join A carries the columns of some left-hand (matched)
submission, with an optional comment side. -/
theorem of_mem_leftMergeSubCom {row : Discussion} {lefts : List SubRow}
    {rights : List ComRow} (h : row ∈ leftMergeSubCom lefts rights) :
    ∃ s ∈ lefts, ∃ c?, row = mkDiscussion (some s) c? := by
  unfold leftMergeSubCom at h
  rw [List.mem_flatten] at h
  obtain ⟨L, hL, hrow⟩ := h
  rw [List.mem_map] at hL
  obtain ⟨s, hs, rfl⟩ := hL
  dsimp only at hrow
  split at hrow
  · rcases List.mem_singleton.1 hrow with rfl
    exact ⟨s, hs, none, rfl⟩
  · rw [List.mem_map] at hrow
    obtain ⟨c, -, rfl⟩ := hrow
    exact ⟨s, hs, some c, rfl⟩

/-- Every row of Join B carries the columns of some left-hand (matched)
comment, with an optional submission side. -/
theorem of_mem_leftMergeComSub {row : Discussion} {lefts : List ComRow}
    {rights : List SubRow} (h : row ∈ leftMergeComSub lefts rights) :
    ∃ c ∈ lefts, ∃ s?, row = mkDiscussion s? (some c) := by
  unfold leftMergeComSub at h
  rw [List.mem_flatten] at h
  obtain ⟨L, hL, hrow⟩ := h
  rw [List.mem_map] at hL
  obtain ⟨c, hc, rfl⟩ := hL
  dsimp only at hrow
  split at hrow
  · rcases List.mem_singleton.1 hrow with rfl
    exact ⟨c, hc, none, rfl⟩
  · rw [List.mem_map] at hrow
    obtain ⟨s, -, rfl⟩ := hrow
    exact ⟨c, hc, some s, rfl⟩

/-- Join A contains a paired row for every left-hand submission and every
right-hand comment whose `link_id` equals its `name`. -/
theorem leftMergeSubCom_pair_mem {lefts : List SubRow} {rights : List ComRow}
    {s : SubRow} {c : ComRow} (hs : s ∈ lefts) (hc : c ∈ rights)
    (hkey : c.link_id = s.name) :
    mkDiscussion (some s) (some c) ∈ leftMergeSubCom lefts rights := by
  unfold leftMergeSubCom
  rw [List.mem_flatten]
  have hcm : c ∈ rights.filter (fun c => c.link_id == s.name) :=
    List.mem_filter.2 ⟨hc, by simp [hkey]⟩
  refine ⟨(rights.filter (fun c => c.link_id == s.name)).map
    (fun c => mkDiscussion (some s) (some c)), ?_, ?_⟩
  · rw [List.mem_map]
    refine ⟨s, hs, ?_⟩
    dsimp only
    rw [if_neg]
    intro hemp
    rw [List.isEmpty_iff] at hemp
    rw [hemp] at hcm
    simp at hcm
  · exact List.mem_map.2 ⟨c, hcm, rfl⟩

/-- The pipeline body in closed form. -/
theorem extractDiscussions_eq (sdf : List SubRow) (cdf : List ComRow) :
    extractDiscussions sdf cdf =
      dropDuplicates
        (leftMergeSubCom (sdf.filter subMatches) cdf
          ++ leftMergeComSub (cdf.filter comMatches) sdf) := rfl

/-- Success decomposition of the extractor: a returned table comes from
successful projections of both inputs followed by successful timestamp
conversions, and is the pipeline body applied to the converted rows. -/
theorem process_reddit_data_ok_iff {subs coms : List Record} {rows : List Discussion} :
    process_reddit_data subs coms = .ok rows ↔
      ∃ sdf cdf sdfT cdfT,
        mkSubmissionsDf subs = .ok sdf ∧ mkCommentsDf coms = .ok cdf ∧
        convertSubTimestamps sdf = .ok sdfT ∧ convertComTimestamps cdf = .ok cdfT ∧
        rows = extractDiscussions sdfT cdfT := by
  constructor
  · intro h
    unfold process_reddit_data at h
    cases hs : mkSubmissionsDf subs with
    | error e => simp [hs, Except.bind, Bind.bind] at h
    | ok sdf =>
      cases hc : mkCommentsDf coms with
      | error e => simp [hs, hc, Except.bind, Bind.bind] at h
      | ok cdf =>
        cases hcs : convertSubTimestamps sdf with
        | error e => simp [hs, hc, hcs, Except.bind, Bind.bind] at h
        | ok sdfT =>
          cases hcc : convertComTimestamps cdf with
          | error e => simp [hs, hc, hcs, hcc, Except.bind, Bind.bind] at h
          | ok cdfT =>
            simp only [hs, hc, hcs, hcc, Except.bind, Bind.bind, Except.ok.injEq] at h
            exact ⟨sdf, cdf, sdfT, cdfT, rfl, rfl, hcs, hcc, h.symm⟩
  · rintro ⟨sdf, cdf, sdfT, cdfT, h1, h2, h3, h4, rfl⟩
    simp [process_reddit_data, h1, h2, h3, h4, Except.bind, Bind.bind]

/-!
Lemmas about the archive decoder.
-/

theorem length_filterMap_add_length_filter {α β : Type} (f : α → Option β) :
    ∀ l : List α,
      (l.filterMap f).length + (l.filter (fun a => (f a).isNone)).length = l.length
  | [] => rfl
  | a :: l => by
    have ih := length_filterMap_add_length_filter f l
    cases h : f a <;> simp [List.filterMap_cons, List.filter_cons, h] <;> omega

/-- The records returned by the decode loop are the successful parses, in
line order. -/
theorem decodeLines_fst (parse : String → Option Record) :
    ∀ (ls : List String) (n k : Nat),
      (decodeLines parse n k ls).1 = ls.filterMap (fun l => parse (stripStr l))
  | [], _, _ => rfl
  | l :: ls, n, k => by
    cases h : parse (stripStr l) <;>
      simp [decodeLines, h, List.filterMap_cons, decodeLines_fst parse ls]

/-- The decode-error lines logged by the loop are exactly the 1-per-failing
line numbers, counted from the loop's starting line number. -/
theorem decodeLines_errors (parse : String → Option Record) :
    ∀ (ls : List String) (n k : Nat),
      loggedErrorLines (decodeLines parse n k ls).2 =
        ((List.enumFrom n ls).filter (fun p => (parse (stripStr p.2)).isNone)).map Prod.fst
  | [], _, _ => rfl
  | l :: ls, n, k => by
    cases h : parse (stripStr l) with
    | some r =>
      simp only [decodeLines, h, List.enumFrom, loggedErrorLines, List.filterMap_append]
      rw [show (List.filterMap (fun e => match e with | .decodeError n => some n | _ => none)
        (if (k + 1) % 1000 == 0 then [LogEntry.progress (k + 1)] else [])) = [] by
          split <;> rfl]
      rw [List.nil_append]
      rw [show ((n, l) :: List.enumFrom (n + 1) ls).filter
            (fun p => (parse (stripStr p.2)).isNone) =
          (List.enumFrom (n + 1) ls).filter (fun p => (parse (stripStr p.2)).isNone) by
        rw [List.filter_cons]; simp [h]]
      exact decodeLines_errors parse ls (n + 1) (k + 1)
    | none =>
      simp only [decodeLines, h, List.enumFrom, loggedErrorLines, List.filterMap_cons]
      rw [show ((n, l) :: List.enumFrom (n + 1) ls).filter
            (fun p => (parse (stripStr p.2)).isNone) =
          (n, l) :: (List.enumFrom (n + 1) ls).filter (fun p => (parse (stripStr p.2)).isNone) by
        rw [List.filter_cons]; simp [h]]
      rw [List.map_cons]
      exact congrArg (n :: ·) (decodeLines_errors parse ls (n + 1) k)

/-!
Claim theorems.
-/

/-- C1: the keyword filter matches a text exactly when it contains "Essure"
or "essure" as a whole word, case-sensitively: a Submission matches iff its
title or selftext contains such a whole word ("essure is bad" matches,
"ESSURE is bad" does not), a Comment matches iff its body does, and a
missing/null text cell is non-matching rather than an error. -/
theorem C1_keyword_filter_whole_word :
    (∀ s : SubRow, subMatches s = true ↔
      (cellHasEssureWholeWord s.title ∨ cellHasEssureWholeWord s.selftext))
    ∧ (∀ c : ComRow, comMatches c = true ↔ cellHasEssureWholeWord c.body)
    ∧ cellMatchesEssure Val.null = false
    ∧ subMatches subRowEssureLower = true
    ∧ subMatches subRowEssureCaps = false := by
  refine ⟨?_, ?_, rfl, by decide, by decide⟩
  · intro s
    rw [show subMatches s = (cellMatchesEssure s.title || cellMatchesEssure s.selftext)
      from rfl]
    rw [Bool.or_eq_true, cellMatchesEssure_iff, cellMatchesEssure_iff]
  · intro c
    rw [show comMatches c = cellMatchesEssure c.body from rfl, cellMatchesEssure_iff]

/-- C1 witness: the filter applied to the concrete title "essure is bad". -/
theorem C1_keyword_filter_whole_word_witness :
    cellHasEssureWholeWord subRowEssureLower.title ∨
      cellHasEssureWholeWord subRowEssureLower.selftext :=
  (C1_keyword_filter_whole_word.1 subRowEssureLower).mp (by decide)

/-- C9: on a failure to open or decompress the archive, the decoder logs the
error and returns an empty sequence — never an exception — so the result is
indistinguishable from a legitimately empty archive. -/
theorem C9_decode_failure_empty (parse : String → Option Record) (e : String) :
    read_zst_to_json parse (.error e) = ([], [LogEntry.fileError e])
    ∧ (read_zst_to_json parse (.error e)).1 = (read_zst_to_json parse (.ok [])).1 :=
  ⟨rfl, rfl⟩

/-- C9 witness: concrete instance at a missing-file error. -/
theorem C9_decode_failure_empty_witness :
    read_zst_to_json testParse (.error "No such file") = ([], [LogEntry.fileError "No such file"])
    ∧ (read_zst_to_json testParse (.error "No such file")).1 =
        (read_zst_to_json testParse (.ok [])).1 :=
  C9_decode_failure_empty testParse "No such file"

/-- C10: the first substring-containment submissions filter is dead code —
its result is immediately overwritten by the whole-word regex filter, so
the extractor equals its variant with that statement removed, on every
input. -/
theorem C10_dead_substring_filter :
    (∀ subs coms : List Record,
      process_reddit_data subs coms = process_reddit_data_nofirstfilter subs coms)
    ∧ (∀ (sdf : List SubRow) (cdf : List ComRow),
      extractDiscussions sdf cdf = extractDiscussions_nofirstfilter sdf cdf) :=
  ⟨fun _ _ => rfl, fun _ _ => rfl⟩

/-- C10 witness: concrete instance on the fixture input. -/
theorem C10_dead_substring_filter_witness :
    process_reddit_data [subRec1] [comRec1, comRec2] =
      process_reddit_data_nofirstfilter [subRec1] [comRec1, comRec2] :=
  C10_dead_substring_filter.1 [subRec1] [comRec1, comRec2]

/-- C3 counterexample: the projection does not retain the author field —
two records identical except for their "author" value project to the same
submission row, and "author" is in neither column allowlist. -/
theorem C3_counterexample_author_dropped :
    mkSubmissionsDf [subRecAuthorA] = mkSubmissionsDf [subRecAuthorB]
    ∧ subRecAuthorA ≠ subRecAuthorB
    ∧ "author" ∉ submissions_cols
    ∧ "author" ∉ comments_cols :=
  ⟨rfl, by decide, by decide, by decide⟩

/-- C3 amended: extract narrows each Submission record to exactly the field
set \x7bid, name, created_utc, title, selftext, subreddit\x7d and each Comment
record to exactly \x7bid, subreddit, created_utc, body, link_id, parent_id\x7d;
the author field is NOT retained (projection depends only on the allowlisted
fields). -/
theorem C3_projected_field_sets :
    submissions_cols = ["id", "name", "created_utc", "title", "selftext", "subreddit"]
    ∧ comments_cols = ["id", "subreddit", "created_utc", "body", "link_id", "parent_id"]
    ∧ (∀ r₁ r₂ : Record,
        (∀ c ∈ submissions_cols, getCol r₁ c = getCol r₂ c) → subRowOf r₁ = subRowOf r₂)
    ∧ (∀ r₁ r₂ : Record,
        (∀ c ∈ comments_cols, getCol r₁ c = getCol r₂ c) → comRowOf r₁ = comRowOf r₂) := by
  refine ⟨rfl, rfl, ?_, ?_⟩
  · intro r₁ r₂ h
    simp only [subRowOf]
    rw [h "id" (by decide), h "name" (by decide), h "created_utc" (by decide),
      h "title" (by decide), h "selftext" (by decide), h "subreddit" (by decide)]
  · intro r₁ r₂ h
    simp only [comRowOf]
    rw [h "id" (by decide), h "subreddit" (by decide), h "created_utc" (by decide),
      h "body" (by decide), h "link_id" (by decide), h "parent_id" (by decide)]

/-- C3 witness: the dependence property applied to the two author-differing
records. -/
theorem C3_projected_field_sets_witness :
    subRowOf subRecAuthorA = subRowOf subRecAuthorB :=
  C3_projected_field_sets.2.2.1 subRecAuthorA subRecAuthorB (by decide)

/-- C5 counterexample: a record missing the required "title" field (present
on the other record) does not make the extraction fail — the projection
fills the missing cell with null and the whole extraction succeeds. -/
theorem C5_counterexample_per_record_tolerance :
    hasCol subRec2 "title" = false
    ∧ "title" ∈ submissions_cols
    ∧ mkSubmissionsDf [subRec1, subRec2] =
        .ok [subRowOf subRec1,
          { id := .str "s2", name := .str "t3_def", created_utc := .int 100,
            title := Val.null, selftext := .str "no keyword", subreddit := .str "r1" }]
    ∧ (process_reddit_data [subRec1, subRec2] [comRec1]).isOk = true :=
  ⟨rfl, by decide, rfl, rfl⟩

/-- C5 amended: Step-1 projection has per-record tolerance: projecting a
record type fails exactly when some required column is absent from every
decoded record of that type (the dataframe lacks the column), and on
success every record is projected, in order, with null filling any field
it lacks — so a single record missing a field that other records supply
does not make the extraction fail at projection time. -/
theorem C5_projection_per_record_tolerance :
    (∀ data : List Record,
      (mkSubmissionsDf data).isOk = colsPresent submissions_cols data)
    ∧ (∀ data : List Record,
      (mkCommentsDf data).isOk = colsPresent comments_cols data)
    ∧ (∀ (cols : List String) (data : List Record),
        colsPresent cols data = false ↔ ∃ c ∈ cols, ∀ r ∈ data, hasCol r c = false)
    ∧ (∀ (data : List Record) (rows : List SubRow),
        mkSubmissionsDf data = .ok rows → rows = data.map subRowOf)
    ∧ (∀ (data : List Record) (rows : List ComRow),
        mkCommentsDf data = .ok rows → rows = data.map comRowOf) := by
  refine ⟨?_, ?_, ?_, ?_, ?_⟩
  · intro data
    unfold mkSubmissionsDf
    cases h : colsPresent submissions_cols data <;>
      simp [h, Except.isOk, Except.toBool]
  · intro data
    unfold mkCommentsDf
    cases h : colsPresent comments_cols data <;>
      simp [h, Except.isOk, Except.toBool]
  · intro cols data
    simp [colsPresent, List.all_eq_false, List.any_eq_false]
  · intro data rows h
    unfold mkSubmissionsDf at h
    split at h
    · simp only [Except.ok.injEq] at h
      exact h.symm
    · simp at h
  · intro data rows h
    unfold mkCommentsDf at h
    split at h
    · simp only [Except.ok.injEq] at h
      exact h.symm
    · simp at h

/-- C5 witness: the tolerance property applied to the mixed fixture input,
whose second record lacks the title field. -/
theorem C5_projection_per_record_tolerance_witness :
    [subRowOf subRec1, subRowOf subRec2] = [subRec1, subRec2].map subRowOf :=
  C5_projection_per_record_tolerance.2.2.2.1 [subRec1, subRec2]
    [subRowOf subRec1, subRowOf subRec2] (by rfl)

/-- C4 counterexample: a subreddit pair whose extraction produces a
non-empty table, yet the driver writes no file at all (its writes component
is empty — in particular no "testsub_essure_discussions.csv"). -/
theorem C4_counterexample_no_file_written :
    process_reddit_data
        (read_zst_to_json testParse testPair.submissionsArchive).1
        (read_zst_to_json testParse testPair.commentsArchive).1 = .ok [disc_s1_c3]
    ∧ driverMain testParse [testPair] =
        .ok (some [disc_s1_c3], ([] : List (String × List Discussion))) :=
  ⟨by rfl, by rfl⟩

/-- C4 amended: the driver persists nothing — every pair's result table
(empty or not) is appended to an in-memory list, one table per pair, and
the write list of a successful run is always empty (the only to_csv call,
line 191, is commented out). -/
theorem C4_driver_no_persistence :
    (∀ (parse : String → Option Record) (pairs : List ArchivePair)
        (res : Option (List Discussion) × List (String × List Discussion)),
      driverMain parse pairs = .ok res → res.2 = [])
    ∧ (∀ (parse : String → Option Record) (pairs : List ArchivePair)
        (tables : List (List Discussion)),
      driverLoop parse pairs = .ok tables → tables.length = pairs.length) := by
  constructor
  · intro parse pairs res h
    unfold driverMain at h
    cases hl : driverLoop parse pairs with
    | error e => rw [hl] at h; cases h
    | ok tables =>
      rw [hl] at h
      by_cases he : tables.isEmpty <;>
        simp [Except.bind, Bind.bind, he] at h <;> rw [← h]
  · intro parse pairs
    induction pairs with
    | nil =>
      intro tables h
      cases h
      rfl
    | cons p ps ih =>
      intro tables h
      unfold driverLoop at h
      cases hp : process_reddit_data
          (read_zst_to_json parse p.submissionsArchive).1
          (read_zst_to_json parse p.commentsArchive).1 with
      | error e => rw [hp] at h; cases h
      | ok d =>
        rw [hp] at h
        cases hr : driverLoop parse ps with
        | error e => rw [hr] at h; cases h
        | ok rest =>
          rw [hr] at h
          simp only [Except.bind, Bind.bind, Except.ok.injEq] at h
          rw [← h]
          simp [ih rest hr]
  
/-- C4 witness: the no-persistence property applied to the fixture run. -/
theorem C4_driver_no_persistence_witness :
    driverMain testParse [testPair] =
      .ok (some [disc_s1_c3], ([] : List (String × List Discussion)))
    ∧ ((some [disc_s1_c3], ([] : List (String × List Discussion))) :
        Option (List Discussion) × List (String × List Discussion)).2 = [] :=
  ⟨by rfl, C4_driver_no_persistence.1 testParse [testPair] _ (by rfl)⟩

/-- C6: for an archive of N lines of which M fail to parse, decode returns
exactly the N−M successfully parsed records, in original line order, and
logs each of the M failures with its originating 1-based line number; no
partially-parsed record is included (a parse yields a whole record or
nothing). -/
theorem C6_decode_skips_bad_lines (parse : String → Option Record) (lines : List String) :
    (read_zst_to_json parse (.ok lines)).1 = lines.filterMap (fun l => parse (stripStr l))
    ∧ (read_zst_to_json parse (.ok lines)).1.length =
        lines.length - (lines.filter (fun l => (parse (stripStr l)).isNone)).length
    ∧ loggedErrorLines (read_zst_to_json parse (.ok lines)).2 =
        ((List.enumFrom 1 lines).filter (fun p => (parse (stripStr p.2)).isNone)).map
          Prod.fst := by
  refine ⟨?_, ?_, ?_⟩
  · exact decodeLines_fst parse lines 1 0
  · rw [show (read_zst_to_json parse (.ok lines)).1 = (decodeLines parse 1 0 lines).1 from rfl,
      decodeLines_fst parse lines 1 0]
    have := length_filterMap_add_length_filter (fun l => parse (stripStr l)) lines
    omega
  · rw [show (read_zst_to_json parse (.ok lines)).2 =
      (decodeLines parse 1 0 lines).2 ++ [LogEntry.totalRecords
        (decodeLines parse 1 0 lines).1.length] from rfl]
    rw [show ∀ a b, loggedErrorLines (a ++ b) = loggedErrorLines a ++ loggedErrorLines b
      from fun a b => List.filterMap_append a b _]
    rw [show loggedErrorLines [LogEntry.totalRecords
      (decodeLines parse 1 0 lines).1.length] = [] from rfl]
    rw [List.append_nil]
    exact decodeLines_errors parse lines 1 0

/-- C6 witness: a three-line archive whose middle line fails to parse. -/
theorem C6_decode_skips_bad_lines_witness :
    (read_zst_to_json testParse (.ok ["S1", "garbage", "C3"])).1 =
      (["S1", "garbage", "C3"].filterMap (fun l => testParse (stripStr l)))
    ∧ (read_zst_to_json testParse (.ok ["S1", "garbage", "C3"])).1.length =
        (["S1", "garbage", "C3"] : List String).length -
          ((["S1", "garbage", "C3"] : List String).filter
            (fun l => (testParse (stripStr l)).isNone)).length
    ∧ loggedErrorLines (read_zst_to_json testParse (.ok ["S1", "garbage", "C3"])).2 =
        ((List.enumFrom 1 ["S1", "garbage", "C3"]).filter
          (fun p => (testParse (stripStr p.2)).isNone)).map Prod.fst :=
  C6_decode_skips_bad_lines testParse ["S1", "garbage", "C3"]

/-- C7: Join A is a left join of the keyword-matched submissions against
all comments (matched or not) on name = link_id: it contains a paired row
for every matched submission and comment under it, and concretely, for the
fixture submission named t3_abc with two non-matching comments with
link_id t3_abc, it produces exactly two rows, one per comment, both
carrying the submission's fields, and these are exactly the rows extract
returns. -/
theorem C7_joinA_left_join :
    (∀ (lefts : List SubRow) (rights : List ComRow) (s : SubRow) (c : ComRow),
        s ∈ lefts → c ∈ rights → c.link_id = s.name →
        mkDiscussion (some s) (some c) ∈ leftMergeSubCom lefts rights)
    ∧ leftMergeSubCom (([subRec1].map subRowOf).filter subMatches)
        ([comRec1, comRec2].map comRowOf) = [disc_s1_c1, disc_s1_c2]
    ∧ process_reddit_data [subRec1] [comRec1, comRec2] = .ok [disc_s1_c1, disc_s1_c2] := by
  refine ⟨fun lefts rights s c hs hc hk => leftMergeSubCom_pair_mem hs hc hk, by rfl, by rfl⟩

/-- C7 witness: the pairing property applied to the fixture submission and
its first comment. -/
theorem C7_joinA_left_join_witness :
    mkDiscussion (some (subRowOf subRec1)) (some (comRowOf comRec1)) ∈
      leftMergeSubCom [subRowOf subRec1] [comRowOf comRec1, comRowOf comRec2] :=
  C7_joinA_left_join.1 [subRowOf subRec1] [comRowOf comRec1, comRowOf comRec2]
    (subRowOf subRec1) (comRowOf comRec1) (by simp) (by simp) (by rfl)

/-- C8: after the renames reconcile Join A and Join B into one schema and
the row sets are concatenated, fully-duplicate rows are dropped: the
returned table never contains two fully-equal rows, and concretely a row
arising once from Join A and once from Join B (matched submission whose
comment also matches) is returned exactly once. -/
theorem C8_concat_dedupe :
    (∀ (subs coms : List Record) (rows : List Discussion),
        process_reddit_data subs coms = .ok rows → rows.Nodup)
    ∧ leftMergeSubCom (([subRec1].map subRowOf).filter subMatches)
        ([comRec3].map comRowOf) = [disc_s1_c3]
    ∧ leftMergeComSub (([comRec3].map comRowOf).filter comMatches)
        ([subRec1].map subRowOf) = [disc_s1_c3]
    ∧ process_reddit_data [subRec1] [comRec3] = .ok [disc_s1_c3] := by
  refine ⟨?_, by rfl, by rfl, by rfl⟩
  intro subs coms rows h
  obtain ⟨sdf, cdf, sdfT, cdfT, -, -, -, -, rfl⟩ := process_reddit_data_ok_iff.1 h
  rw [extractDiscussions_eq]
  exact nodup_dropDuplicates _

/-- C8 witness: the no-duplicates property applied to the fixture run whose
row arises from both joins. -/
theorem C8_concat_dedupe_witness : ([disc_s1_c3] : List Discussion).Nodup :=
  C8_concat_dedupe.1 [subRec1] [comRec3] [disc_s1_c3] (by rfl)

/-- C2: every row of a table returned by extract has a matched side — its
submission title or selftext contains the whole-word keyword, or its
comment body does; the union of the two join directions never produces a
row in which neither side matched the filter. -/
theorem C2_every_row_matched_side (subs coms : List Record) (rows : List Discussion)
    (h : process_reddit_data subs coms = .ok rows) :
    ∀ row ∈ rows,
      (cellMatchesEssure row.submission_title || cellMatchesEssure row.submission_selftext
        || cellMatchesEssure row.comment_body) = true := by
  obtain ⟨sdf, cdf, sdfT, cdfT, -, -, -, -, rfl⟩ := process_reddit_data_ok_iff.1 h
  intro row hrow
  rw [extractDiscussions_eq, mem_dropDuplicates] at hrow
  rcases List.mem_append.1 hrow with h1 | h2
  · obtain ⟨s, hs, c?, rfl⟩ := of_mem_leftMergeSubCom h1
    have hmatch : subMatches s = true := (List.mem_filter.1 hs).2
    rw [show subMatches s = (cellMatchesEssure s.title || cellMatchesEssure s.selftext)
      from rfl] at hmatch
    simp only [mkDiscussion, Option.map_some', Option.getD_some]
    rw [Bool.or_eq_true] at hmatch
    rcases hmatch with hm | hm <;> simp [hm]
  · obtain ⟨c, hc, s?, rfl⟩ := of_mem_leftMergeComSub h2
    have hmatch : comMatches c = true := (List.mem_filter.1 hc).2
    rw [show comMatches c = cellMatchesEssure c.body from rfl] at hmatch
    simp only [mkDiscussion, Option.map_some', Option.getD_some]
    simp [hmatch]

/-- C2 witness: the invariant applied to the first fixture row. -/
theorem C2_every_row_matched_side_witness :
    (cellMatchesEssure disc_s1_c1.submission_title ||
      cellMatchesEssure disc_s1_c1.submission_selftext ||
      cellMatchesEssure disc_s1_c1.comment_body) = true :=
  C2_every_row_matched_side [subRec1] [comRec1, comRec2] [disc_s1_c1, disc_s1_c2]
    (by rfl) disc_s1_c1 (by simp)
